import Mathlib

/-!
Verification of the atom-selection AST evaluator of
`moleculekit/atomselect/atomselect.py` (function `traverse_ast` and its
helpers) against its natural-language specification.

Embedding conventions:
* numpy per-atom arrays become Lean `List`s; float arrays become `List Rat`
  (exact rationals stand in for IEEE floats; no claim below depends on
  rounding), integer arrays `List Int`, string arrays `List String`.
* `mol.coords[:, :, mol.frame]` is the only way the evaluator reads
  coordinates, so `Molecule.coords` holds that active-frame slice directly:
  one `(x, y, z)` triple per atom.
* The two external collaborators that are not part of the repository's
  source - Python's `re.match` and the Cython primitive
  `moleculekit.atomselect_utils.within_distance` - are passed to the
  evaluator as parameters (`rm`, `wd`).  A concrete spec-modelled
  `within_distance` is given below for theorems that need the distance
  primitive's contract.
* Python exceptions become `Except EvalErr`; each `RuntimeError`/`KeyError`
  of the source gets its own constructor.
-/

namespace MoleculeKit

/-- Runtime value flowing between AST nodes during evaluation
(spec 3 "Evaluation Value"): boolean/numeric/string arrays of per-atom
length, scalars, and literal lists coming from the parser. -/
inductive Value where
  | boolArr (bs : List Bool)
  | intArr (ns : List Int)
  | ratArr (qs : List Rat)
  | strArr (ss : List String)
  | bool (b : Bool)
  | int (n : Int)
  | rat (q : Rat)
  | str (s : String)
  | intList (ns : List Int)
  | strList (ss : List String)
  | coordArr (cs : List (Rat × Rat × Rat))
  deriving Repr, DecidableEq

/-- AST node (spec 3 "AST Node"): a Python tuple `(op, child1, ...)` becomes
`node op [child1, ...]`; a non-tuple child (literal int/float/string or list
thereof) becomes `lit v`, which evaluation passes through unchanged, exactly
as `traverse_ast` only recurses into `tuple` children. -/
inductive AST where
  | lit (v : Value)
  | node (op : String) (args : List AST)
  deriving Repr

/-- Molecule collaborator (spec 3): fixed-length per-atom arrays plus the
active-frame coordinate slice `coords[:, :, frame]`, one `(x,y,z)` per atom.
`numAtoms` mirrors `mol.numAtoms`. -/
structure Molecule where
  numAtoms : Nat
  serial : List Int
  name : List String
  element : List String
  resname : List String
  resid : List Int
  insertion : List String
  chain : List String
  segid : List String
  altloc : List String
  masses : List Rat
  beta : List Rat
  charge : List Rat
  coords : List (Rat × Rat × Rat)
  deriving Repr

/-- Analysis collaborator (spec 3): boolean group masks and the integer
`fragments`/`residues` arrays, all of per-atom length. -/
structure Analysis where
  lipids : List Bool
  ions : List Bool
  waters : List Bool
  protein_bb : List Bool
  nucleic_bb : List Bool
  sidechain : List Bool
  protein : List Bool
  nucleic : List Bool
  fragments : List Int
  residues : List Int
  deriving Repr

/-- Errors raised during evaluation; each constructor corresponds to one
`raise RuntimeError`/host exception site of `traverse_ast`
(spec 7 error kinds). -/
inductive EvalErr where
  | invalidMolecule (m : String)
  | invalidMolprop (p : String)
  | keyError (k : String)
  | invalidLogop (o : String)
  | invalidComp (o : String)
  | invalidFunction (f : String)
  | negativeSqrt (v : Value)
  | invalidSameProp (p : String)
  | invalidOperation (o : String)
  | typeError (m : String)
  | broadcastError
  | malformedNode
  deriving Repr, DecidableEq

/-- The module-level `molpropmap` dict (atomselect.py lines 8-23). -/
def molpropmapList : List (String × String) :=
  [("serial", "serial"), ("name", "name"), ("element", "element"),
   ("resname", "resname"), ("resid", "resid"), ("insertion", "insertion"),
   ("chain", "chain"), ("segid", "segid"), ("segname", "segid"),
   ("altloc", "altloc"), ("mass", "masses"), ("occupancy", "beta"),
   ("beta", "beta"), ("charge", "charge")]

/-- Dict lookup `molpropmap[p]`: `none` models a `KeyError`. -/
def molpropmap (p : String) : Option String := molpropmapList.lookup p

/-- Python `getattr(mol, attr)` for the attribute names occurring as values
of `molpropmap`, tagged with the dtype of the corresponding numpy array. -/
def getMolAttr (mol : Molecule) (attr : String) : Option Value :=
  if attr = "serial" then some (.intArr mol.serial)
  else if attr = "name" then some (.strArr mol.name)
  else if attr = "element" then some (.strArr mol.element)
  else if attr = "resname" then some (.strArr mol.resname)
  else if attr = "resid" then some (.intArr mol.resid)
  else if attr = "insertion" then some (.strArr mol.insertion)
  else if attr = "chain" then some (.strArr mol.chain)
  else if attr = "segid" then some (.strArr mol.segid)
  else if attr = "altloc" then some (.strArr mol.altloc)
  else if attr = "masses" then some (.ratArr mol.masses)
  else if attr = "beta" then some (.ratArr mol.beta)
  else if attr = "charge" then some (.ratArr mol.charge)
  else none

/-- Contiguous-substring test on character lists (Python's `in` operator
for strings). -/
def containsSub (pat : List Char) : List Char → Bool
  | [] => pat.isEmpty
  | c :: rest => pat.isPrefixOf (c :: rest) || containsSub pat rest

/-- Python `".*" in y`: the wildcard-marker test of the value matcher. -/
def hasWildcard (y : String) : Bool := containsSub ['.', '*'] y.toList

/-- Type of the stand-in for Python's `re.match`: first argument the
pattern, second the string (the evaluator imports `re`, an external
collaborator, so it is a parameter of the embedding). -/
abbrev RegexFn := String → String → Bool

/-- Query value for a string-typed property: Python hands the inner `fn`
either a single string or a list of strings. -/
inductive StrQuery where
  | scalar (s : String)
  | list (ss : List String)
  deriving Repr, DecidableEq

/-- Query value for an integer-typed property. -/
inductive IntQuery where
  | scalar (n : Int)
  | list (ns : List Int)
  deriving Repr, DecidableEq

/-- Query value for a float-typed property. -/
inductive RatQuery where
  | scalar (q : Rat)
  | list (qs : List Rat)
  deriving Repr, DecidableEq

/-- The inner value matcher `fn` of the molprop branch (atomselect.py lines
62-79), instantiated at a string-dtype property array `x`.
* scalar branch: `if not isinstance(y, str) or ".*" not in y: x == y
  else: [re.match(y, xx) for xx in x]`.
* list branch: the guard is `not isinstance(y, str) or all(".*" not in yy
  for yy in y)`; since `y` is a list (never a `str`), its first disjunct is
  always true, which is transcribed literally as `!(false : Bool) || ...`.
  The regex alternative below it is therefore dead code; it is transcribed
  anyway: it appends one entry per (atom, member) pair, so it would build a
  flat list of length `x.length * ys.length`, not a per-atom mask. -/
def fn_str (rm : RegexFn) (x : List String) (y : StrQuery) : List Bool :=
  match y with
  | .scalar s =>
    if !(hasWildcard s) then
      x.map (fun xx => xx == s)
    else
      x.map (fun xx => rm s xx)
  | .list ys =>
    if !(false : Bool) || ys.all (fun yy => !(hasWildcard yy)) then
      x.map (fun xx => ys.contains xx)
    else
      (x.map (fun xx =>
        ys.map (fun yy => if hasWildcard yy then rm yy xx else xx == yy))).flatten

/-- The inner value matcher `fn` instantiated at an integer-dtype property
array: an `int` query is not a `str`, so the scalar branch always takes
`x == y` and the list branch always takes `np.isin(x, y)`. -/
def fn_int (x : List Int) (y : IntQuery) : List Bool :=
  match y with
  | .scalar n => x.map (fun xx => xx == n)
  | .list ns => x.map (fun xx => ns.contains xx)

/-- The inner value matcher `fn` instantiated at a float-dtype property
array (mass/occupancy/beta/charge); like `fn_int`, no wildcard is possible. -/
def fn_rat (x : List Rat) (y : RatQuery) : List Bool :=
  match y with
  | .scalar q => x.map (fun xx => xx == q)
  | .list qs => x.map (fun xx => qs.contains xx)

/-- numpy elementwise `&` as applied by the `logop and` branch (line 99):
there is no boolean type check in the source; numpy computes logical AND on
boolean arrays, bitwise AND on integer arrays (booleans upcast to 0/1 when
mixed), and raises `TypeError` for float (and other unsupported) operands.
Shape mismatch between two arrays raises a broadcast error. -/
def npAnd : Value → Value → Except EvalErr Value
  | .boolArr a, .boolArr b =>
    if a.length = b.length then .ok (.boolArr (List.zipWith (fun p q => p && q) a b))
    else .error .broadcastError
  | .intArr a, .intArr b =>
    if a.length = b.length then .ok (.intArr (List.zipWith Int.land a b))
    else .error .broadcastError
  | .boolArr a, .intArr b =>
    if a.length = b.length then
      .ok (.intArr (List.zipWith (fun p q => Int.land (if p then 1 else 0) q) a b))
    else .error .broadcastError
  | .intArr a, .boolArr b =>
    if a.length = b.length then
      .ok (.intArr (List.zipWith (fun p q => Int.land p (if q then 1 else 0)) a b))
    else .error .broadcastError
  | _, _ => .error (.typeError "unsupported operand type for bitwise and")

/-- numpy elementwise `|` as applied by the `logop or` branch (line 101);
same typing behaviour as `npAnd`. -/
def npOr : Value → Value → Except EvalErr Value
  | .boolArr a, .boolArr b =>
    if a.length = b.length then .ok (.boolArr (List.zipWith (fun p q => p || q) a b))
    else .error .broadcastError
  | .intArr a, .intArr b =>
    if a.length = b.length then .ok (.intArr (List.zipWith Int.lor a b))
    else .error .broadcastError
  | .boolArr a, .intArr b =>
    if a.length = b.length then
      .ok (.intArr (List.zipWith (fun p q => Int.lor (if p then 1 else 0) q) a b))
    else .error .broadcastError
  | .intArr a, .boolArr b =>
    if a.length = b.length then
      .ok (.intArr (List.zipWith (fun p q => Int.lor p (if q then 1 else 0)) a b))
    else .error .broadcastError
  | _, _ => .error (.typeError "unsupported operand type for bitwise or")

/-- numpy elementwise `~` as applied by the `logop not` branch (line 103):
logical complement on boolean arrays, bitwise complement `-n-1` on integer
arrays, `TypeError` on float operands. -/
def npNot : Value → Except EvalErr Value
  | .boolArr a => .ok (.boolArr (a.map (fun b => !b)))
  | .intArr a => .ok (.intArr (a.map (fun n => -(n + 1))))
  | _ => .error (.typeError "unsupported operand type for bitwise not")

/-- Unary minus of the `uminus` branch (line 107); numpy raises `TypeError`
for boolean arrays and non-numeric operands. -/
def npNeg : Value → Except EvalErr Value
  | .intArr a => .ok (.intArr (a.map (fun n => -n)))
  | .ratArr a => .ok (.ratArr (a.map (fun q => -q)))
  | .int n => .ok (.int (-n))
  | .rat q => .ok (.rat (-q))
  | _ => .error (.typeError "unsupported operand type for unary minus")

/-- Numeric view of a value used by comparisons and arithmetic: integers
and booleans embed exactly into the rationals (numpy upcasts bool to 0/1);
rationals stand in for floats. -/
inductive NumVal where
  | arr (qs : List Rat)
  | scalar (q : Rat)

/-- Coerce a value to its numeric view, `none` for strings and lists
(numpy raises for those in ordered comparisons/arithmetic). -/
def toNum : Value → Option NumVal
  | .intArr ns => some (.arr (ns.map (fun n => (n : Rat))))
  | .ratArr qs => some (.arr qs)
  | .boolArr bs => some (.arr (bs.map (fun b => if b then 1 else 0)))
  | .int n => some (.scalar (n : Rat))
  | .rat q => some (.scalar q)
  | .bool b => some (.scalar (if b then 1 else 0))
  | _ => none

/-- Comparison operator table of the `comp` branch (lines 122-135); `none`
models the final `raise RuntimeError(Invalid comparison op)`. -/
def compFun (op : String) : Option (Rat → Rat → Bool) :=
  if op = "=" then some (fun a b => a == b)
  else if op = "<" then some (fun a b => decide (a < b))
  else if op = ">" then some (fun a b => decide (a > b))
  else if op = "<=" then some (fun a b => decide (a ≤ b))
  else if op = ">=" then some (fun a b => decide (b ≤ a))
  else none

/-- The `comp` branch: elementwise comparison with scalar broadcasting
(spec 4.4); two scalars give a scalar boolean. -/
def npCompare (op : String) (v1 v2 : Value) : Except EvalErr Value :=
  match compFun op with
  | none => .error (.invalidComp op)
  | some rel =>
    match toNum v1, toNum v2 with
    | some (.arr a), some (.arr b) =>
      if a.length = b.length then .ok (.boolArr (List.zipWith rel a b))
      else .error .broadcastError
    | some (.arr a), some (.scalar q) => .ok (.boolArr (a.map (fun v => rel v q)))
    | some (.scalar q), some (.arr b) => .ok (.boolArr (b.map (fun v => rel q v)))
    | some (.scalar p), some (.scalar q) => .ok (.bool (rel p q))
    | _, _ => .error (.typeError "unsupported operand type for comparison")

/-- Arithmetic operator table of the `mathop` branch (lines 149-158);
`none` models the unbound-`fn` failure for an unknown operator.  Division
by zero yields Lean's `0` convention here where the host float stack would
produce inf/nan - flagged as an open host-dependent corner by spec 9 and
exercised by no claim.  Results are kept in exact rationals, so the int64
overflow the host could exhibit is idealised away. -/
def mathFun (op : String) : Option (Rat → Rat → Rat) :=
  if op = "+" then some (fun a b => a + b)
  else if op = "-" then some (fun a b => a - b)
  else if op = "*" then some (fun a b => a * b)
  else if op = "/" then some (fun a b => a / b)
  else none

/-- The `mathop` branch: elementwise arithmetic with scalar broadcasting. -/
def npMathop (op : String) (v1 v2 : Value) : Except EvalErr Value :=
  match mathFun op with
  | none => .error (.invalidOperation op)
  | some f =>
    match toNum v1, toNum v2 with
    | some (.arr a), some (.arr b) =>
      if a.length = b.length then .ok (.ratArr (List.zipWith f a b))
      else .error .broadcastError
    | some (.arr a), some (.scalar q) => .ok (.ratArr (a.map (fun v => f v q)))
    | some (.scalar q), some (.arr b) => .ok (.ratArr (b.map (fun v => f q v)))
    | some (.scalar p), some (.scalar q) => .ok (.rat (f p q))
    | _, _ => .error (.typeError "unsupported operand type for arithmetic")

/-- The `func` branch (lines 137-147).  `np.abs`/`sqr` preserve the dtype;
`np.sqrt` always returns floats, with `Rat.sqrt` standing in for the host
float square root (no claim depends on its values).  The negative-operand
guard `np.any(node[2] < 0)` runs before the square root and raises, carrying
the offending operand. -/
def evalFunc (f : String) (v : Value) : Except EvalErr Value :=
  if f = "abs" then
    match v with
    | .intArr ns => .ok (.intArr (ns.map (fun n => (n.natAbs : Int))))
    | .ratArr qs => .ok (.ratArr (qs.map (fun q => |q|)))
    | .int n => .ok (.int (n.natAbs : Int))
    | .rat q => .ok (.rat |q|)
    | _ => .error (.typeError "unsupported operand type for abs")
  else if f = "sqr" then
    match v with
    | .intArr ns => .ok (.intArr (ns.map (fun n => n * n)))
    | .ratArr qs => .ok (.ratArr (qs.map (fun q => q * q)))
    | .int n => .ok (.int (n * n))
    | .rat q => .ok (.rat (q * q))
    | _ => .error (.typeError "unsupported operand type for sqr")
  else if f = "sqrt" then
    match v with
    | .intArr ns =>
      if ns.any (fun n => decide (n < 0)) then .error (.negativeSqrt (.intArr ns))
      else .ok (.ratArr (ns.map (fun n => Rat.sqrt (n : Rat))))
    | .ratArr qs =>
      if qs.any (fun q => decide (q < 0)) then .error (.negativeSqrt (.ratArr qs))
      else .ok (.ratArr (qs.map Rat.sqrt))
    | .int n =>
      if n < 0 then .error (.negativeSqrt (.int n))
      else .ok (.rat (Rat.sqrt (n : Rat)))
    | .rat q =>
      if q < 0 then .error (.negativeSqrt (.rat q))
      else .ok (.rat (Rat.sqrt q))
    | _ => .error (.typeError "unsupported operand type for sqrt")
  else .error (.invalidFunction f)

/-- Boolean-mask fancy indexing followed by `np.unique` as in the `sameas`
branch: `np.unique(vals[sel])` - the distinct values of `vals` at positions
where `sel` is true (`np.unique` also sorts, which no later membership test
observes; `dedup` keeps only the distinctness). -/
def uniqueSel {α : Type} [DecidableEq α] (vals : List α) (sel : List Bool) : List α :=
  ((vals.zip sel).filterMap (fun p => if p.2 then some p.1 else none)).dedup

/-- Group expansion of the `sameas` branch (lines 163-176):
`np.isin(vals, np.unique(vals[sel]))` - true for every atom whose group
value occurs among the selected atoms' group values. -/
def sameasExpand {α : Type} [DecidableEq α] (vals : List α) (sel : List Bool) : List Bool :=
  vals.map (fun v => decide (v ∈ uniqueSel vals sel))

/-- The `sameas` dispatch (lines 163-176), in source order: `fragment`
first, then any `molpropmap` property, then `residue`, else an error.  The
selection operand must be a boolean mask; numpy's alternative integer fancy
indexing is not modelled (no claim and no grammar production reaches it). -/
def evalSameas (mol : Molecule) (an : Analysis) (prop : String) (selv : Value) :
    Except EvalErr Value :=
  match selv with
  | .boolArr sel =>
    if prop = "fragment" then .ok (.boolArr (sameasExpand an.fragments sel))
    else
      match molpropmap prop with
      | some attr =>
        match getMolAttr mol attr with
        | some (.intArr vals) => .ok (.boolArr (sameasExpand vals sel))
        | some (.strArr vals) => .ok (.boolArr (sameasExpand vals sel))
        | some (.ratArr vals) => .ok (.boolArr (sameasExpand vals sel))
        | _ => .error .malformedNode
      | none =>
        if prop = "residue" then .ok (.boolArr (sameasExpand an.residues sel))
        else .error (.invalidSameProp prop)
  | _ => .error (.typeError "sameas selection is not a boolean mask")

/-- Squared Euclidean distance between two coordinate triples. -/
def sqdist (p q : Rat × Rat × Rat) : Rat :=
  (p.1 - q.1) ^ 2 + (p.2.1 - q.2.1) ^ 2 + (p.2.2 - q.2.2) ^ 2

/-- Componentwise minimum `source_coor.min(axis=0)`; the caller guarantees a
nonempty list (the empty-source early return at line 183), so the default
for `[]` is never observed. -/
def bboxMin : List (Rat × Rat × Rat) → Rat × Rat × Rat
  | [] => (0, 0, 0)
  | c :: cs => cs.foldl (fun m p => (min m.1 p.1, min m.2.1 p.2.1, min m.2.2 p.2.2)) c

/-- Componentwise maximum `source_coor.max(axis=0)`. -/
def bboxMax : List (Rat × Rat × Rat) → Rat × Rat × Rat
  | [] => (0, 0, 0)
  | c :: cs => cs.foldl (fun m p => (max m.1 p.1, max m.2.1 p.2.1, max m.2.2 p.2.2)) c

/-- Type of the distance-primitive collaborator
`moleculekit.atomselect_utils.within_distance`: full active-frame
coordinates, cutoff, source-atom indices, bounding-box min/max, and the
preallocated mask; it returns the filled mask. -/
abbrev WithinFn :=
  List (Rat × Rat × Rat) → Rat → List Nat → (Rat × Rat × Rat) → (Rat × Rat × Rat) →
    List Bool → List Bool

/-- Modelled from the spec: the Cython distance primitive `within_distance`
(module `moleculekit.atomselect_utils`) is not under src/; per the
distance-primitive contract of spec 6 it fills a boolean mask over all
atoms, true exactly for atoms within `cutoff` of any source atom and
self-inclusive for source atoms; the bounding box is a pruning hint that
does not change the exact result.  The real-valued comparison
`dist <= cutoff` is expressed in rationals as
`0 <= cutoff` and `dist^2 <= cutoff^2`, which is equivalent since distances
are nonnegative. -/
def within_distance : WithinFn := fun coords cutoff sourceIdx _bmin _bmax _mask =>
  (List.range coords.length).map (fun i =>
    decide (0 ≤ cutoff) && sourceIdx.any (fun j =>
      decide (sqdist (coords.getD i (0, 0, 0)) (coords.getD j (0, 0, 0)) ≤ cutoff ^ 2)))

/-- Indices of the true entries of a mask: `np.where(source)[0]`. -/
def whereTrue (src : List Bool) : List Nat :=
  (List.range src.length).filter (fun i => src.getD i false)

/-- The `within`/`exwithin` branch (lines 178-199): all-false mask if the
source selects no atom (no call to the primitive); otherwise the source
atoms' coordinates give the bounding box, the primitive fills the fresh
mask, and for `exwithin` the source positions are cleared afterwards
(`mask[source] = False`). -/
def evalWithin (wd : WithinFn) (mol : Molecule) (cutoffv srcv : Value)
    (exclusive : Bool) : Except EvalErr Value :=
  match srcv with
  | .boolArr src =>
    match (match cutoffv with
           | .int n => some ((n : Rat))
           | .rat q => some q
           | _ => none) with
    | none => .error (.typeError "within cutoff is not a number")
    | some cutoff =>
      let mask := List.replicate mol.numAtoms false
      if !src.any (fun b => b) then .ok (.boolArr mask)
      else
        let source_coor := (mol.coords.zip src).filterMap
          (fun p => if p.2 then some p.1 else none)
        let min_source := bboxMin source_coor
        let max_source := bboxMax source_coor
        let filled := wd mol.coords cutoff (whereTrue src) min_source max_source mask
        if exclusive then
          .ok (.boolArr (List.zipWith (fun m s => m && !s) filled src))
        else
          .ok (.boolArr filled)
  | _ => .error (.typeError "within source is not a boolean mask")

/-- The `molecule` keyword branch (lines 35-55).  `backbone` is the
elementwise union of the two analysis masks (equal-length arrays by the
Analysis invariant of spec 3). -/
def evalMolecule (mol : Molecule) (an : Analysis) (molec : String) :
    Except EvalErr Value :=
  if molec = "lipid" ∨ molec = "lipids" then .ok (.boolArr an.lipids)
  else if molec = "ion" ∨ molec = "ions" then .ok (.boolArr an.ions)
  else if molec = "water" ∨ molec = "waters" then .ok (.boolArr an.waters)
  else if molec = "hydrogen" then .ok (.boolArr (mol.element.map (fun e => e == "H")))
  else if molec = "noh" then .ok (.boolArr (mol.element.map (fun e => e != "H")))
  else if molec = "backbone" then
    .ok (.boolArr (List.zipWith (fun p q => p || q) an.protein_bb an.nucleic_bb))
  else if molec = "sidechain" then .ok (.boolArr an.sidechain)
  else if molec = "protein" then .ok (.boolArr an.protein)
  else if molec = "nucleic" then .ok (.boolArr an.nucleic)
  else .error (.invalidMolecule molec)

/-- The `molprop_int_eq`/`molprop_str_eq` branch (lines 57-88): a property
in `molpropmap` matches against its array via the value matcher `fn`
(monomorphised per dtype as `fn_str`/`fn_int`/`fn_rat`); the synthetic
`index` matches against `np.arange(0, mol.numAtoms)` and `residue` against
`analysis["residues"]`; anything else raises.  A query whose runtime type
does not fit the property array's dtype is host-version-dependent in numpy
and is not modelled (no claim reaches it). -/
def evalMolprop (rm : RegexFn) (mol : Molecule) (an : Analysis) (molprop : String)
    (value : Value) : Except EvalErr Value :=
  match molpropmap molprop with
  | some attr =>
    match getMolAttr mol attr, value with
    | some (.strArr x), .str s => .ok (.boolArr (fn_str rm x (.scalar s)))
    | some (.strArr x), .strList l => .ok (.boolArr (fn_str rm x (.list l)))
    | some (.intArr x), .int n => .ok (.boolArr (fn_int x (.scalar n)))
    | some (.intArr x), .intList l => .ok (.boolArr (fn_int x (.list l)))
    | some (.ratArr x), .int n => .ok (.boolArr (fn_rat x (.scalar (n : Rat))))
    | some (.ratArr x), .rat q => .ok (.boolArr (fn_rat x (.scalar q)))
    | some (.ratArr x), .intList l =>
      .ok (.boolArr (fn_rat x (.list (l.map (fun n => (n : Rat))))))
    | _, _ => .error (.typeError "molprop query type not modelled")
  | none =>
    if molprop = "index" then
      match value with
      | .int n => .ok (.boolArr (fn_int ((List.range mol.numAtoms).map Int.ofNat) (.scalar n)))
      | .intList l => .ok (.boolArr (fn_int ((List.range mol.numAtoms).map Int.ofNat) (.list l)))
      | _ => .error (.typeError "molprop query type not modelled")
    else if molprop = "residue" then
      match value with
      | .int n => .ok (.boolArr (fn_int an.residues (.scalar n)))
      | .intList l => .ok (.boolArr (fn_int an.residues (.list l)))
      | _ => .error (.typeError "molprop query type not modelled")
    else .error (.invalidMolprop molprop)

/-- The `molprop_int_modulo` branch (lines 90-94):
`(getattr(mol, molpropmap[molprop]) % val1) == val2`.  The dict subscript
`molpropmap[molprop]` raises `KeyError` for any property not in the map -
in particular for the synthetic `index` and `residue`.  numpy's `%` on
int64 follows floored division (`Int.fmod`) except that a zero divisor
yields 0 (with a warning); float-dtype and string-dtype properties would go
through host float `fmod`/`TypeError`, not modelled (no claim reaches
them). -/
def evalModulo (mol : Molecule) (molprop : String) (v1 v2 : Value) :
    Except EvalErr Value :=
  match molpropmap molprop with
  | none => .error (.keyError molprop)
  | some attr =>
    match getMolAttr mol attr, v1, v2 with
    | some (.intArr x), .int d, .int r =>
      .ok (.boolArr (x.map (fun a => (if d = 0 then 0 else Int.fmod a d) == r)))
    | _, _, _ => .error (.typeError "modulo operand types not modelled")

/-- The `numprop` branch (lines 112-120): `x`/`y`/`z` give the active-frame
coordinate column, any other name goes through `molpropmap` (`KeyError` when
absent) and returns the property array itself. -/
def evalNumprop (mol : Molecule) (p : String) : Except EvalErr Value :=
  if p = "x" then .ok (.ratArr (mol.coords.map (fun c => c.1)))
  else if p = "y" then .ok (.ratArr (mol.coords.map (fun c => c.2.1)))
  else if p = "z" then .ok (.ratArr (mol.coords.map (fun c => c.2.2)))
  else
    match molpropmap p with
    | none => .error (.keyError p)
    | some attr =>
      match getMolAttr mol attr with
      | some v => .ok v
      | none => .error .malformedNode

/-- Dispatch on the operation tag with the children already evaluated
(the body of `traverse_ast` after its recursion loop, lines 35-201).
Arity/shape mismatches that the source would surface as host
`IndexError`s are folded into `malformedNode`/the final invalid-operation
error (spec 6 `MalformedAST`). -/
def dispatch (rm : RegexFn) (wd : WithinFn) (mol : Molecule) (an : Analysis)
    (op : String) (args : List Value) : Except EvalErr Value :=
  match op, args with
  | "molecule", [.str molec] => evalMolecule mol an molec
  | "molprop_int_eq", [.str p, v] => evalMolprop rm mol an p v
  | "molprop_str_eq", [.str p, v] => evalMolprop rm mol an p v
  | "molprop_int_modulo", [.str p, v1, v2] => evalModulo mol p v1 v2
  | "logop", [.str "and", a, b] => npAnd a b
  | "logop", [.str "or", a, b] => npOr a b
  | "logop", [.str "not", a] => npNot a
  | "logop", .str o :: _ =>
    if o = "and" ∨ o = "or" ∨ o = "not" then .error .malformedNode
    else .error (.invalidLogop o)
  | "uminus", [v] => npNeg v
  | "grouped", [v] => .ok v
  | "numprop", [.str p] => evalNumprop mol p
  | "comp", [.str o, a, b] => npCompare o a b
  | "func", [.str f, v] => evalFunc f v
  | "mathop", [.str o, a, b] => npMathop o a b
  | "sameas", [.str p, sel] => evalSameas mol an p sel
  | "within", [c, s] => evalWithin wd mol c s false
  | "exwithin", [c, s] => evalWithin wd mol c s true
  | o, _ => .error (.invalidOperation o)

mutual

/-- The evaluator `traverse_ast(mol, analysis, node)` (lines 26-201):
post-order recursion - every tuple child is evaluated first, literal
children pass through unchanged - followed by the operation dispatch.
The external collaborators `re.match` and `within_distance` are explicit
parameters `rm` and `wd`. -/
def traverse_ast (rm : RegexFn) (wd : WithinFn) (mol : Molecule) (an : Analysis) :
    AST → Except EvalErr Value
  | .lit v => .ok v
  | .node op args =>
    match traverse_args rm wd mol an args with
    | .error e => .error e
    | .ok vals => dispatch rm wd mol an op vals

/-- The child-resolution loop of `traverse_ast` (lines 31-33): children are
evaluated left to right, the first error aborting the whole evaluation. -/
def traverse_args (rm : RegexFn) (wd : WithinFn) (mol : Molecule) (an : Analysis) :
    List AST → Except EvalErr (List Value)
  | [] => .ok []
  | a :: rest =>
    match traverse_ast rm wd mol an a with
    | .error e => .error e
    | .ok v =>
      match traverse_args rm wd mol an rest with
      | .error e => .error e
      | .ok vs => .ok (v :: vs)

end

/-- Modelled from the spec: value-matcher case 4 of spec 4.3 - for a list
query with wildcard members, an atom matches when its value equals any
non-wildcard member or regex-matches any wildcard member, one boolean per
atom.  This definition follows the spec's words and exists only to be
compared against the behaviour the source actually has. -/
def matchesListSpec (rm : RegexFn) (x : List String) (ys : List String) : List Bool :=
  x.map (fun xx => ys.any (fun yy => if hasWildcard yy then rm yy xx else xx == yy))

/-- Characters of a pattern before its first wildcard marker (the whole
pattern when it has none). -/
def takeUntilWild : List Char → List Char
  | [] => []
  | '.' :: '*' :: _ => []
  | c :: rest => c :: takeUntilWild rest

/-- A concrete interpretation of the `re.match` parameter, agreeing with
Python's `re.match` on patterns that are a literal optionally followed by a
trailing wildcard marker: `re.match` anchors at the start of the string, so
such a pattern is truthy exactly when its literal part is a string prefix.
Theorems quantify over the regex parameter; this instantiation is used only
at concrete inputs. -/
def rmWild : RegexFn := fun pat s => (takeUntilWild pat.toList).isPrefixOf s.toList

/-- A concrete two-atom molecule used for witnesses and counterexamples. -/
def molA : Molecule :=
  { numAtoms := 2, serial := [1, 2], name := ["NA", "CB"], element := ["N", "C"],
    resname := ["NA", "CB"], resid := [1, 1], insertion := ["", ""],
    chain := ["A", "A"], segid := ["P", "P"], altloc := ["", ""],
    masses := [1, 2], beta := [0, 0], charge := [0, 0],
    coords := [(0, 0, 0), (10, 0, 0)] }

/-- A concrete analysis for `molA`. -/
def anA : Analysis :=
  { lipids := [false, false], ions := [false, false], waters := [false, false],
    protein_bb := [false, false], nucleic_bb := [false, false],
    sidechain := [false, false], protein := [true, true],
    nucleic := [false, false], fragments := [0, 0], residues := [0, 1] }

/-!
Store-based rendition of the evaluator, for the no-mutation property.

`traverse_ast` above represents every numpy array as an immutable value, so
it cannot even express in-place mutation.  To state that the evaluator
never mutates the Molecule/Analysis arrays, the same source function is
transcribed once more with the arrays held in an explicit store (`Heap`):
Molecule/Analysis carry store slots, every attribute access is a store
read, and the three in-place effects of the source - `np.zeros` allocating
the mask, `within_distance` filling it, and `mask[source] = False` clearing
the source bits - become an allocation and two writes to the allocated
slot.  The frame theorem then says: evaluation only ever writes to slots it
allocated itself, so every slot present before evaluation - in particular
every Molecule and Analysis array - still holds the same array afterwards.
-/

/-- Array store: the numpy arrays reachable during one evaluation,
indexed by slot. -/
abbrev Heap := List Value

/-- Allocation (`np.zeros` and similar): append a fresh array and return
its slot. -/
def Heap.alloc (h : Heap) (v : Value) : Nat × Heap := (h.length, h ++ [v])

/-- In-place array write: replace the array at a slot. -/
def Heap.write (h : Heap) (i : Nat) (v : Value) : Heap := h.set i v

/-- Molecule collaborator with its per-atom arrays held in the store:
each field is the slot of the corresponding array. -/
structure HMolecule where
  numAtoms : Nat
  serial : Nat
  name : Nat
  element : Nat
  resname : Nat
  resid : Nat
  insertion : Nat
  chain : Nat
  segid : Nat
  altloc : Nat
  masses : Nat
  beta : Nat
  charge : Nat
  coords : Nat
  deriving Repr

/-- Analysis collaborator with its arrays held in the store. -/
structure HAnalysis where
  lipids : Nat
  ions : Nat
  waters : Nat
  protein_bb : Nat
  nucleic_bb : Nat
  sidechain : Nat
  protein : Nat
  nucleic : Nat
  fragments : Nat
  residues : Nat
  deriving Repr

/-- Python `getattr(mol, attr)` on the store-based molecule: the slot of
the attribute's array. -/
def HMolecule.attr (mol : HMolecule) (a : String) : Option Nat :=
  if a = "serial" then some mol.serial
  else if a = "name" then some mol.name
  else if a = "element" then some mol.element
  else if a = "resname" then some mol.resname
  else if a = "resid" then some mol.resid
  else if a = "insertion" then some mol.insertion
  else if a = "chain" then some mol.chain
  else if a = "segid" then some mol.segid
  else if a = "altloc" then some mol.altloc
  else if a = "masses" then some mol.masses
  else if a = "beta" then some mol.beta
  else if a = "charge" then some mol.charge
  else none

/-- Store read of a `molpropmap` attribute of the molecule. -/
def readAttr (mol : HMolecule) (h : Heap) (attr : String) : Option Value :=
  match mol.attr attr with
  | some slot => h[slot]?
  | none => none

/-- Store-based `molecule` branch; reads only. -/
def evalMoleculeH (mol : HMolecule) (an : HAnalysis) (h : Heap) (molec : String) :
    Except EvalErr Value :=
  if molec = "lipid" ∨ molec = "lipids" then
    match h[an.lipids]? with
    | some v => .ok v
    | none => .error .malformedNode
  else if molec = "ion" ∨ molec = "ions" then
    match h[an.ions]? with
    | some v => .ok v
    | none => .error .malformedNode
  else if molec = "water" ∨ molec = "waters" then
    match h[an.waters]? with
    | some v => .ok v
    | none => .error .malformedNode
  else if molec = "hydrogen" then
    match h[mol.element]? with
    | some (.strArr es) => .ok (.boolArr (es.map (fun e => e == "H")))
    | _ => .error .malformedNode
  else if molec = "noh" then
    match h[mol.element]? with
    | some (.strArr es) => .ok (.boolArr (es.map (fun e => e != "H")))
    | _ => .error .malformedNode
  else if molec = "backbone" then
    match h[an.protein_bb]?, h[an.nucleic_bb]? with
    | some (.boolArr p), some (.boolArr n) =>
      .ok (.boolArr (List.zipWith (fun a b => a || b) p n))
    | _, _ => .error .malformedNode
  else if molec = "sidechain" then
    match h[an.sidechain]? with
    | some v => .ok v
    | none => .error .malformedNode
  else if molec = "protein" then
    match h[an.protein]? with
    | some v => .ok v
    | none => .error .malformedNode
  else if molec = "nucleic" then
    match h[an.nucleic]? with
    | some v => .ok v
    | none => .error .malformedNode
  else .error (.invalidMolecule molec)

/-- Store-based molprop branch; reads only. -/
def evalMolpropH (rm : RegexFn) (mol : HMolecule) (an : HAnalysis) (h : Heap)
    (molprop : String) (value : Value) : Except EvalErr Value :=
  match molpropmap molprop with
  | some attr =>
    match readAttr mol h attr, value with
    | some (.strArr x), .str s => .ok (.boolArr (fn_str rm x (.scalar s)))
    | some (.strArr x), .strList l => .ok (.boolArr (fn_str rm x (.list l)))
    | some (.intArr x), .int n => .ok (.boolArr (fn_int x (.scalar n)))
    | some (.intArr x), .intList l => .ok (.boolArr (fn_int x (.list l)))
    | some (.ratArr x), .int n => .ok (.boolArr (fn_rat x (.scalar (n : Rat))))
    | some (.ratArr x), .rat q => .ok (.boolArr (fn_rat x (.scalar q)))
    | some (.ratArr x), .intList l =>
      .ok (.boolArr (fn_rat x (.list (l.map (fun n => (n : Rat))))))
    | _, _ => .error (.typeError "molprop query type not modelled")
  | none =>
    if molprop = "index" then
      match value with
      | .int n =>
        .ok (.boolArr (fn_int ((List.range mol.numAtoms).map Int.ofNat) (.scalar n)))
      | .intList l =>
        .ok (.boolArr (fn_int ((List.range mol.numAtoms).map Int.ofNat) (.list l)))
      | _ => .error (.typeError "molprop query type not modelled")
    else if molprop = "residue" then
      match h[an.residues]?, value with
      | some (.intArr rs), .int n => .ok (.boolArr (fn_int rs (.scalar n)))
      | some (.intArr rs), .intList l => .ok (.boolArr (fn_int rs (.list l)))
      | _, _ => .error (.typeError "molprop query type not modelled")
    else .error (.invalidMolprop molprop)

/-- Store-based modulo branch; reads only. -/
def evalModuloH (mol : HMolecule) (h : Heap) (molprop : String) (v1 v2 : Value) :
    Except EvalErr Value :=
  match molpropmap molprop with
  | none => .error (.keyError molprop)
  | some attr =>
    match readAttr mol h attr, v1, v2 with
    | some (.intArr x), .int d, .int r =>
      .ok (.boolArr (x.map (fun a => (if d = 0 then 0 else Int.fmod a d) == r)))
    | _, _, _ => .error (.typeError "modulo operand types not modelled")

/-- Store-based numprop branch; reads only. -/
def evalNumpropH (mol : HMolecule) (h : Heap) (p : String) : Except EvalErr Value :=
  if p = "x" then
    match h[mol.coords]? with
    | some (.coordArr cs) => .ok (.ratArr (cs.map (fun c => c.1)))
    | _ => .error .malformedNode
  else if p = "y" then
    match h[mol.coords]? with
    | some (.coordArr cs) => .ok (.ratArr (cs.map (fun c => c.2.1)))
    | _ => .error .malformedNode
  else if p = "z" then
    match h[mol.coords]? with
    | some (.coordArr cs) => .ok (.ratArr (cs.map (fun c => c.2.2)))
    | _ => .error .malformedNode
  else
    match molpropmap p with
    | none => .error (.keyError p)
    | some attr =>
      match readAttr mol h attr with
      | some v => .ok v
      | none => .error .malformedNode

/-- Store-based sameas branch; reads only. -/
def evalSameasH (mol : HMolecule) (an : HAnalysis) (h : Heap) (prop : String)
    (selv : Value) : Except EvalErr Value :=
  match selv with
  | .boolArr sel =>
    if prop = "fragment" then
      match h[an.fragments]? with
      | some (.intArr fr) => .ok (.boolArr (sameasExpand fr sel))
      | _ => .error .malformedNode
    else
      match molpropmap prop with
      | some attr =>
        match readAttr mol h attr with
        | some (.intArr vals) => .ok (.boolArr (sameasExpand vals sel))
        | some (.strArr vals) => .ok (.boolArr (sameasExpand vals sel))
        | some (.ratArr vals) => .ok (.boolArr (sameasExpand vals sel))
        | _ => .error .malformedNode
      | none =>
        if prop = "residue" then
          match h[an.residues]? with
          | some (.intArr rs) => .ok (.boolArr (sameasExpand rs sel))
          | _ => .error .malformedNode
        else .error (.invalidSameProp prop)
  | _ => .error (.typeError "sameas selection is not a boolean mask")

/-- Store-based within/exwithin branch: the one branch with effects.
`np.zeros` allocates the mask slot; the primitive's filling of the mask and
the `mask[source] = False` clearing are writes to that freshly allocated
slot, and to no other. -/
def evalWithinH (wd : WithinFn) (mol : HMolecule) (h : Heap) (cutoffv srcv : Value)
    (exclusive : Bool) : Except EvalErr (Value × Heap) :=
  match srcv with
  | .boolArr src =>
    match (match cutoffv with
           | .int n => some ((n : Rat))
           | .rat q => some q
           | _ => none) with
    | none => .error (.typeError "within cutoff is not a number")
    | some cutoff =>
      match h[mol.coords]? with
      | some (.coordArr coords) =>
        let am := h.alloc (.boolArr (List.replicate mol.numAtoms false))
        if !src.any (fun b => b) then
          .ok (.boolArr (List.replicate mol.numAtoms false), am.2)
        else
          let source_coor := (coords.zip src).filterMap
            (fun p => if p.2 then some p.1 else none)
          let filled := wd coords cutoff (whereTrue src) (bboxMin source_coor)
            (bboxMax source_coor) (List.replicate mol.numAtoms false)
          let h2 := am.2.write am.1 (.boolArr filled)
          if exclusive then
            let cleared := List.zipWith (fun m s => m && !s) filled src
            .ok (.boolArr cleared, h2.write am.1 (.boolArr cleared))
          else .ok (.boolArr filled, h2)
      | _ => .error .malformedNode
  | _ => .error (.typeError "within source is not a boolean mask")

/-- Read-only part of the store-based dispatch: every branch except
within/exwithin only reads the store and produces a value.  The if-chain
mirrors the source's sequential `if operation ==` tests; the tags tested
are mutually exclusive, so their order is immaterial.  Arity/shape
mismatches are `malformedNode` as in `dispatch`. -/
def dispatchReadH (rm : RegexFn) (mol : HMolecule) (an : HAnalysis)
    (h : Heap) (op : String) (args : List Value) : Except EvalErr Value :=
  if op = "molecule" then
    match args with
    | [.str molec] => evalMoleculeH mol an h molec
    | _ => .error .malformedNode
  else if op = "molprop_int_eq" ∨ op = "molprop_str_eq" then
    match args with
    | [.str p, v] => evalMolpropH rm mol an h p v
    | _ => .error .malformedNode
  else if op = "molprop_int_modulo" then
    match args with
    | [.str p, v1, v2] => evalModuloH mol h p v1 v2
    | _ => .error .malformedNode
  else if op = "logop" then
    match args with
    | .str o :: rest =>
      if o = "and" then
        match rest with
        | [a, b] => npAnd a b
        | _ => .error .malformedNode
      else if o = "or" then
        match rest with
        | [a, b] => npOr a b
        | _ => .error .malformedNode
      else if o = "not" then
        match rest with
        | [a] => npNot a
        | _ => .error .malformedNode
      else .error (.invalidLogop o)
    | _ => .error .malformedNode
  else if op = "uminus" then
    match args with
    | [v] => npNeg v
    | _ => .error .malformedNode
  else if op = "grouped" then
    match args with
    | [v] => .ok v
    | _ => .error .malformedNode
  else if op = "numprop" then
    match args with
    | [.str p] => evalNumpropH mol h p
    | _ => .error .malformedNode
  else if op = "comp" then
    match args with
    | [.str o, a, b] => npCompare o a b
    | _ => .error .malformedNode
  else if op = "func" then
    match args with
    | [.str f, v] => evalFunc f v
    | _ => .error .malformedNode
  else if op = "mathop" then
    match args with
    | [.str o, a, b] => npMathop o a b
    | _ => .error .malformedNode
  else if op = "sameas" then
    match args with
    | [.str p, sel] => evalSameasH mol an h p sel
    | _ => .error .malformedNode
  else .error (.invalidOperation op)

/-- Store-based dispatch: the two spatial branches - the only ones that
touch the store - are singled out (the operation tags are mutually
exclusive string literals, so this reordering of the source's if-chain does
not change behaviour); every other branch goes through `dispatchReadH` and
returns the store untouched. -/
def dispatchH (rm : RegexFn) (wd : WithinFn) (mol : HMolecule) (an : HAnalysis)
    (h : Heap) (op : String) (args : List Value) : Except EvalErr (Value × Heap) :=
  if op = "within" then
    match args with
    | [c, s] => evalWithinH wd mol h c s false
    | _ => .error .malformedNode
  else if op = "exwithin" then
    match args with
    | [c, s] => evalWithinH wd mol h c s true
    | _ => .error .malformedNode
  else (dispatchReadH rm mol an h op args).map (fun v => (v, h))

mutual

/-- The evaluator with the array store explicit: same recursion as
`traverse_ast`, threading the store through child evaluation and
dispatch. -/
def traverseH (rm : RegexFn) (wd : WithinFn) (mol : HMolecule) (an : HAnalysis) :
    Heap → AST → Except EvalErr (Value × Heap)
  | h, .lit v => .ok (v, h)
  | h, .node op args =>
    match traverseArgsH rm wd mol an h args with
    | .error e => .error e
    | .ok (vals, h1) => dispatchH rm wd mol an h1 op vals

/-- Child resolution with the store threaded left to right. -/
def traverseArgsH (rm : RegexFn) (wd : WithinFn) (mol : HMolecule) (an : HAnalysis) :
    Heap → List AST → Except EvalErr (List Value × Heap)
  | h, [] => .ok ([], h)
  | h, a :: rest =>
    match traverseH rm wd mol an h a with
    | .error e => .error e
    | .ok (v, h1) =>
      match traverseArgsH rm wd mol an h1 rest with
      | .error e => .error e
      | .ok (vs, h2) => .ok (v :: vs, h2)

end

/-- Frame relation between stores: every slot present in the first store
still holds the same array in the second (which may have extra freshly
allocated slots). -/
def Heap.ext (h h' : Heap) : Prop :=
  h.length ≤ h'.length ∧ ∀ i, i < h.length → h'[i]? = h[i]?

/-- A concrete store, molecule and node for the no-mutation witness: one
coordinate array in slot 0, all of the molecule's slots pointing at it
(only `coords` is read by the witness node). -/
def heapW : Heap := [.coordArr [(0, 0, 0), (10, 0, 0)]]

/-- Store-based molecule for the no-mutation witness. -/
def molW : HMolecule :=
  { numAtoms := 2, serial := 0, name := 0, element := 0, resname := 0, resid := 0,
    insertion := 0, chain := 0, segid := 0, altloc := 0, masses := 0, beta := 0,
    charge := 0, coords := 0 }

/-- Store-based analysis for the no-mutation witness. -/
def anW : HAnalysis :=
  { lipids := 0, ions := 0, waters := 0, protein_bb := 0, nucleic_bb := 0,
    sidechain := 0, protein := 0, nucleic := 0, fragments := 0, residues := 0 }

/-! Evaluation step lemmas: the defining equations of the mutual
recursion, restated so proofs can rewrite one traversal step at a time. -/

theorem traverse_ast_lit (rm : RegexFn) (wd : WithinFn) (mol : Molecule) (an : Analysis)
    (v : Value) : traverse_ast rm wd mol an (.lit v) = .ok v := by
  rw [traverse_ast]

theorem traverse_ast_node (rm : RegexFn) (wd : WithinFn) (mol : Molecule) (an : Analysis)
    (op : String) (args : List AST) :
    traverse_ast rm wd mol an (.node op args) =
      match traverse_args rm wd mol an args with
      | .error e => .error e
      | .ok vals => dispatch rm wd mol an op vals := by
  rw [traverse_ast]

theorem traverse_args_nil (rm : RegexFn) (wd : WithinFn) (mol : Molecule) (an : Analysis) :
    traverse_args rm wd mol an [] = .ok [] := by
  rw [traverse_args]

theorem traverse_args_cons (rm : RegexFn) (wd : WithinFn) (mol : Molecule) (an : Analysis)
    (a : AST) (rest : List AST) :
    traverse_args rm wd mol an (a :: rest) =
      match traverse_ast rm wd mol an a with
      | .error e => .error e
      | .ok v =>
        match traverse_args rm wd mol an rest with
        | .error e => .error e
        | .ok vs => .ok (v :: vs) := by
  rw [traverse_args]

/-! Dispatch bridge lemmas: reduction of `dispatch` at a concrete
operation tag, used after the traversal steps have produced the children's
values. -/

theorem dispatch_logop_and (rm : RegexFn) (wd : WithinFn) (mol : Molecule) (an : Analysis)
    (a b : Value) : dispatch rm wd mol an "logop" [.str "and", a, b] = npAnd a b := rfl

theorem dispatch_logop_or (rm : RegexFn) (wd : WithinFn) (mol : Molecule) (an : Analysis)
    (a b : Value) : dispatch rm wd mol an "logop" [.str "or", a, b] = npOr a b := rfl

theorem dispatch_logop_not (rm : RegexFn) (wd : WithinFn) (mol : Molecule) (an : Analysis)
    (a : Value) : dispatch rm wd mol an "logop" [.str "not", a] = npNot a := rfl

theorem dispatch_func (rm : RegexFn) (wd : WithinFn) (mol : Molecule) (an : Analysis)
    (f : String) (v : Value) :
    dispatch rm wd mol an "func" [.str f, v] = evalFunc f v := rfl

theorem dispatch_within (rm : RegexFn) (wd : WithinFn) (mol : Molecule) (an : Analysis)
    (c s : Value) : dispatch rm wd mol an "within" [c, s] = evalWithin wd mol c s false := by
  cases c <;> cases s <;> rfl

theorem dispatch_exwithin (rm : RegexFn) (wd : WithinFn) (mol : Molecule) (an : Analysis)
    (c s : Value) : dispatch rm wd mol an "exwithin" [c, s] = evalWithin wd mol c s true := by
  cases c <;> cases s <;> rfl

theorem dispatch_sameas (rm : RegexFn) (wd : WithinFn) (mol : Molecule) (an : Analysis)
    (p : String) (sel : Value) :
    dispatch rm wd mol an "sameas" [.str p, sel] = evalSameas mol an p sel := rfl

theorem dispatch_molprop_str (rm : RegexFn) (wd : WithinFn) (mol : Molecule) (an : Analysis)
    (p : String) (v : Value) :
    dispatch rm wd mol an "molprop_str_eq" [.str p, v] = evalMolprop rm mol an p v := rfl

/-! Helper lemmas about the spatial branch. -/

theorem evalWithin_empty (wd : WithinFn) (mol : Molecule) (c : Rat) (src : List Bool)
    (excl : Bool) (h : src.any (fun b => b) = false) :
    evalWithin wd mol (.rat c) (.boolArr src) excl =
      .ok (.boolArr (List.replicate mol.numAtoms false)) := by
  unfold evalWithin
  simp [h]

theorem evalWithin_posWithin (wd : WithinFn) (mol : Molecule) (c : Rat) (src : List Bool)
    (h : src.any (fun b => b) = true) :
    evalWithin wd mol (.rat c) (.boolArr src) false =
      .ok (.boolArr (wd mol.coords c (whereTrue src)
        (bboxMin ((mol.coords.zip src).filterMap (fun p => if p.2 then some p.1 else none)))
        (bboxMax ((mol.coords.zip src).filterMap (fun p => if p.2 then some p.1 else none)))
        (List.replicate mol.numAtoms false))) := by
  unfold evalWithin
  simp [h]

theorem evalWithin_posExwithin (wd : WithinFn) (mol : Molecule) (c : Rat) (src : List Bool)
    (h : src.any (fun b => b) = true) :
    evalWithin wd mol (.rat c) (.boolArr src) true =
      .ok (.boolArr (List.zipWith (fun m s => m && !s)
        (wd mol.coords c (whereTrue src)
          (bboxMin ((mol.coords.zip src).filterMap (fun p => if p.2 then some p.1 else none)))
          (bboxMax ((mol.coords.zip src).filterMap (fun p => if p.2 then some p.1 else none)))
          (List.replicate mol.numAtoms false)) src)) := by
  unfold evalWithin
  simp [h]

theorem getD_replicate_false (n i : Nat) : (List.replicate n false).getD i false = false := by
  rw [List.getD_eq_getElem?_getD, List.getElem?_replicate]
  split <;> rfl

theorem getD_eq_false_of_le {l : List Bool} {i : Nat} (h : l.length ≤ i) :
    l.getD i false = false := by
  rw [List.getD_eq_getElem?_getD, List.getElem?_eq_none h]
  rfl

theorem lt_length_of_getD_true {l : List Bool} {i : Nat} (h : l.getD i false = true) :
    i < l.length := by
  by_contra hc
  rw [getD_eq_false_of_le (le_of_not_lt hc)] at h
  exact Bool.false_ne_true h

theorem mem_whereTrue (src : List Bool) (i : Nat) :
    i ∈ whereTrue src ↔ i < src.length ∧ src.getD i false = true := by
  unfold whereTrue
  simp [List.mem_filter, List.mem_range]

theorem within_distance_getD (coords : List (Rat × Rat × Rat)) (c : Rat) (idx : List Nat)
    (b1 b2 : Rat × Rat × Rat) (m : List Bool) (i : Nat) :
    (within_distance coords c idx b1 b2 m).getD i false =
      if i < coords.length then
        decide (0 ≤ c) && idx.any (fun j =>
          decide (sqdist (coords.getD i (0, 0, 0)) (coords.getD j (0, 0, 0)) ≤ c ^ 2))
      else false := by
  unfold within_distance
  rw [List.getD_eq_getElem?_getD, List.getElem?_map]
  rcases lt_or_ge i coords.length with h | h
  · rw [List.getElem?_range h]
    simp [h]
  · rw [List.getElem?_eq_none (by simpa using h)]
    simp [Nat.not_lt.mpr h]

theorem within_distance_length (coords : List (Rat × Rat × Rat)) (c : Rat) (idx : List Nat)
    (b1 b2 : Rat × Rat × Rat) (m : List Bool) :
    (within_distance coords c idx b1 b2 m).length = coords.length := by
  unfold within_distance
  simp

theorem getD_zipWith_and_not (w src : List Bool) (h : src.length = w.length) (i : Nat) :
    (List.zipWith (fun m s => m && !s) w src).getD i false =
      (w.getD i false && !(src.getD i false)) := by
  rw [List.getD_eq_getElem?_getD, List.getD_eq_getElem?_getD, List.getD_eq_getElem?_getD,
    List.getElem?_zipWith]
  rcases lt_or_ge i w.length with hi | hi
  · rw [List.getElem?_eq_getElem hi, List.getElem?_eq_getElem (by omega : i < src.length)]
    rfl
  · rw [List.getElem?_eq_none hi, List.getElem?_eq_none (by omega : src.length ≤ i)]
    rfl

theorem sqdist_self (p : Rat × Rat × Rat) : sqdist p p = 0 := by
  unfold sqdist
  ring

/-! Helper lemmas about group expansion. -/

theorem zip_self_map {α β : Type} (l : List α) (g : α → β) :
    l.zip (l.map g) = l.map (fun a => (a, g a)) := by
  induction l with
  | nil => rfl
  | cons a t ih => simp [ih]

theorem mem_uniqueSel {α : Type} [DecidableEq α] (vals : List α) (sel : List Bool) (v : α) :
    v ∈ uniqueSel vals sel ↔ (v, true) ∈ vals.zip sel := by
  unfold uniqueSel
  rw [List.mem_dedup, List.mem_filterMap]
  constructor
  · rintro ⟨⟨a, b⟩, hab, hsome⟩
    cases b
    · simp at hsome
    · simp only [if_true, Option.some_inj] at hsome
      exact hsome ▸ hab
  · intro h
    exact ⟨(v, true), h, rfl⟩

theorem uniqueSel_expand_mem {α : Type} [DecidableEq α] (vals : List α) (s : List Bool)
    (v : α) :
    v ∈ uniqueSel vals (sameasExpand vals s) ↔ v ∈ vals ∧ v ∈ uniqueSel vals s := by
  rw [mem_uniqueSel]
  simp only [sameasExpand]
  rw [zip_self_map, List.mem_map]
  constructor
  · rintro ⟨a, ha, heq⟩
    injection heq with h1 h2
    subst h1
    exact ⟨ha, of_decide_eq_true h2⟩
  · rintro ⟨hv, hm⟩
    exact ⟨v, hv, by simp [hm]⟩

theorem sameasExpand_idem {α : Type} [DecidableEq α] (vals : List α) (s : List Bool) :
    sameasExpand vals (sameasExpand vals s) = sameasExpand vals s := by
  show vals.map (fun v => decide (v ∈ uniqueSel vals (sameasExpand vals s))) =
    vals.map (fun v => decide (v ∈ uniqueSel vals s))
  apply List.map_congr_left
  intro v hv
  simp only [decide_eq_decide]
  rw [uniqueSel_expand_mem]
  exact ⟨fun h => h.2, fun h => ⟨hv, h⟩⟩

/-- C1: the claim states that for a property-equals node whose query value
is a list with a wildcard member, the mask is the per-atom OR of exact
matches against non-wildcard members and regex matches against wildcard
members.  The source instead always takes the `np.isin` branch for a list
query - the guard `not isinstance(y, str) or all(...)` is vacuously true
because `y` is a list - so wildcard members are compared as literals.  At
resname array `["NA", "CB"]` and query `["CB", "N.*"]` the evaluator
returns `[false, true]` (exact membership only) while the claimed
semantics, `matchesListSpec`, gives `[true, true]` because `"NA"` matches
the wildcard member `"N.*"`. -/
theorem claim1_wildcard_list_ignored :
    traverse_ast rmWild within_distance molA anA
      (.node "molprop_str_eq" [.lit (.str "resname"), .lit (.strList ["CB", "N.*"])]) =
      .ok (.boolArr [false, true]) ∧
    matchesListSpec rmWild molA.resname ["CB", "N.*"] = [true, true] := ⟨rfl, by rfl⟩

/-- C2 counterexample: the claim states that a logical node with a
non-boolean operand fails with a type error; but evaluating `and` on two
integer arrays succeeds and returns their elementwise bitwise AND (an
integer array), so no error is raised. -/
theorem claim2_counterexample_int_operands_accepted :
    traverse_ast rmWild within_distance molA anA
      (.node "logop" [.lit (.str "and"), .lit (.intArr [3]), .lit (.intArr [1])]) =
      .ok (.intArr [1]) := rfl

/-- C2 amended: the logical branches perform no type check of their own -
they apply the host's elementwise bitwise operators, so boolean arrays
yield logical results, integer arrays are accepted and yield bitwise
results (no error), and only operand types the bitwise operator rejects
(float arrays) produce a type error. -/
theorem claim2_amended_no_type_check (rm : RegexFn) (wd : WithinFn) (mol : Molecule)
    (an : Analysis) :
    (∀ p q : List Bool, p.length = q.length →
      traverse_ast rm wd mol an
          (.node "logop" [.lit (.str "and"), .lit (.boolArr p), .lit (.boolArr q)]) =
        .ok (.boolArr (List.zipWith (fun x y => x && y) p q)) ∧
      traverse_ast rm wd mol an
          (.node "logop" [.lit (.str "or"), .lit (.boolArr p), .lit (.boolArr q)]) =
        .ok (.boolArr (List.zipWith (fun x y => x || y) p q))) ∧
    (∀ a b : List Int, a.length = b.length →
      traverse_ast rm wd mol an
          (.node "logop" [.lit (.str "and"), .lit (.intArr a), .lit (.intArr b)]) =
        .ok (.intArr (List.zipWith Int.land a b)) ∧
      traverse_ast rm wd mol an
          (.node "logop" [.lit (.str "or"), .lit (.intArr a), .lit (.intArr b)]) =
        .ok (.intArr (List.zipWith Int.lor a b))) ∧
    (∀ bs : List Bool,
      traverse_ast rm wd mol an (.node "logop" [.lit (.str "not"), .lit (.boolArr bs)]) =
        .ok (.boolArr (bs.map (fun b => !b)))) ∧
    (∀ ns : List Int,
      traverse_ast rm wd mol an (.node "logop" [.lit (.str "not"), .lit (.intArr ns)]) =
        .ok (.intArr (ns.map (fun n => -(n + 1))))) ∧
    (∀ x y : List Rat,
      traverse_ast rm wd mol an
          (.node "logop" [.lit (.str "and"), .lit (.ratArr x), .lit (.ratArr y)]) =
        .error (.typeError "unsupported operand type for bitwise and") ∧
      traverse_ast rm wd mol an
          (.node "logop" [.lit (.str "or"), .lit (.ratArr x), .lit (.ratArr y)]) =
        .error (.typeError "unsupported operand type for bitwise or") ∧
      traverse_ast rm wd mol an
          (.node "logop" [.lit (.str "not"), .lit (.ratArr x)]) =
        .error (.typeError "unsupported operand type for bitwise not")) := by
  refine ⟨fun p q h => ⟨?_, ?_⟩, fun a b h => ⟨?_, ?_⟩, fun bs => ?_, fun ns => ?_,
    fun x y => ⟨?_, ?_, ?_⟩⟩
  all_goals
    rw [traverse_ast_node, traverse_args_cons, traverse_ast_lit, traverse_args_cons,
      traverse_ast_lit]
  any_goals rw [traverse_args_cons, traverse_ast_lit]
  all_goals rw [traverse_args_nil]
  all_goals dsimp only
  · rw [dispatch_logop_and]
    unfold npAnd
    dsimp only
    rw [if_pos h]
  · rw [dispatch_logop_or]
    unfold npOr
    dsimp only
    rw [if_pos h]
  · rw [dispatch_logop_and]
    unfold npAnd
    dsimp only
    rw [if_pos h]
  · rw [dispatch_logop_or]
    unfold npOr
    dsimp only
    rw [if_pos h]
  · rfl
  · rfl
  · rfl
  · rfl
  · rfl

/-- C2 amended witness: the integer-array part of the amended claim at a
concrete input. -/
theorem claim2_amended_no_type_check_witness :
    traverse_ast rmWild within_distance molA anA
      (.node "logop" [.lit (.str "and"), .lit (.intArr [3]), .lit (.intArr [1])]) =
      .ok (.intArr (List.zipWith Int.land [3] [1])) :=
  ((claim2_amended_no_type_check rmWild within_distance molA anA).2.1 [3] [1] rfl).1

/-- C3: evaluating the negation node on any subtree that evaluates to a
boolean mask yields exactly the elementwise complement of that mask. -/
theorem claim3_not_complement (rm : RegexFn) (wd : WithinFn) (mol : Molecule)
    (an : Analysis) (S : AST) (m : List Bool)
    (h : traverse_ast rm wd mol an S = .ok (.boolArr m)) :
    traverse_ast rm wd mol an (.node "logop" [.lit (.str "not"), S]) =
      .ok (.boolArr (m.map (fun b => !b))) := by
  rw [traverse_ast_node, traverse_args_cons, traverse_ast_lit, traverse_args_cons, h,
    traverse_args_nil]
  rfl

/-- C3 witness: the complement law at a concrete mask. -/
theorem claim3_not_complement_witness :
    traverse_ast rmWild within_distance molA anA
      (.node "logop" [.lit (.str "not"), .lit (.boolArr [true, false])]) =
      .ok (.boolArr (List.map (fun b => !b) [true, false])) :=
  claim3_not_complement rmWild within_distance molA anA (.lit (.boolArr [true, false]))
    [true, false] rfl

/-- C4: for a nonnegative cutoff, with the distance primitive satisfying
its self-inclusive contract, the exwithin mask is a subset of the within
mask over the same source subtree, the within mask is exactly the union of
the exwithin mask and the source mask, and the exwithin mask is disjoint
from the source mask - i.e. the two masks differ exactly by the atoms the
source selects. -/
theorem claim4_exwithin_within_diff (rm : RegexFn) (mol : Molecule) (an : Analysis)
    (c : Rat) (S : AST) (src : List Bool)
    (hc : 0 ≤ c)
    (hS : traverse_ast rm within_distance mol an S = .ok (.boolArr src))
    (hsrc : src.length = mol.numAtoms)
    (hcoords : mol.coords.length = mol.numAtoms) :
    ∃ w e : List Bool,
      traverse_ast rm within_distance mol an (.node "within" [.lit (.rat c), S]) =
        .ok (.boolArr w) ∧
      traverse_ast rm within_distance mol an (.node "exwithin" [.lit (.rat c), S]) =
        .ok (.boolArr e) ∧
      (∀ i : Nat, e.getD i false = true → w.getD i false = true) ∧
      (∀ i : Nat, w.getD i false = (e.getD i false || src.getD i false)) ∧
      (∀ i : Nat, ¬(e.getD i false = true ∧ src.getD i false = true)) := by
  cases hany : src.any (fun b => b) with
  | false =>
    have hsrcF : ∀ i, src.getD i false = false := by
      intro i
      rcases lt_or_ge i src.length with hi | hi
      · rw [List.getD_eq_getElem?_getD, List.getElem?_eq_getElem hi]
        have hm := List.any_eq_false.mp hany (src.get ⟨i, hi⟩) (List.get_mem src i hi)
        simpa using hm
      · exact getD_eq_false_of_le hi
    refine ⟨List.replicate mol.numAtoms false, List.replicate mol.numAtoms false,
      ?_, ?_, ?_, ?_, ?_⟩
    · rw [traverse_ast_node, traverse_args_cons, traverse_ast_lit, traverse_args_cons, hS,
        traverse_args_nil]
      dsimp only
      rw [dispatch_within]
      exact evalWithin_empty _ mol c src false hany
    · rw [traverse_ast_node, traverse_args_cons, traverse_ast_lit, traverse_args_cons, hS,
        traverse_args_nil]
      dsimp only
      rw [dispatch_exwithin]
      exact evalWithin_empty _ mol c src true hany
    · intro i h
      exact h
    · intro i
      rw [getD_replicate_false, hsrcF]
      rfl
    · intro i h
      rw [getD_replicate_false] at h
      exact Bool.false_ne_true h.1
  | true =>
    set sc := (mol.coords.zip src).filterMap (fun p => if p.2 then some p.1 else none)
      with hsc
    set W := within_distance mol.coords c (whereTrue src) (bboxMin sc) (bboxMax sc)
      (List.replicate mol.numAtoms false) with hW
    set E := List.zipWith (fun m s => m && !s) W src with hE
    have hWlen : W.length = mol.coords.length := by
      rw [hW]
      exact within_distance_length mol.coords c (whereTrue src) (bboxMin sc) (bboxMax sc)
        (List.replicate mol.numAtoms false)
    have hWget : ∀ i, W.getD i false =
        if i < mol.coords.length then
          decide (0 ≤ c) && (whereTrue src).any (fun j =>
            decide (sqdist (mol.coords.getD i (0, 0, 0)) (mol.coords.getD j (0, 0, 0)) ≤ c ^ 2))
        else false := by
      intro i
      rw [hW]
      exact within_distance_getD mol.coords c (whereTrue src) (bboxMin sc) (bboxMax sc)
        (List.replicate mol.numAtoms false) i
    have hself : ∀ i, src.getD i false = true → W.getD i false = true := by
      intro i hi
      have hil : i < src.length := lt_length_of_getD_true hi
      have hic : i < mol.coords.length := by omega
      rw [hWget, if_pos hic]
      rw [Bool.and_eq_true]
      refine ⟨decide_eq_true hc, ?_⟩
      refine List.any_eq_true.mpr ⟨i, (mem_whereTrue src i).mpr ⟨hil, hi⟩, ?_⟩
      refine decide_eq_true ?_
      rw [sqdist_self]
      positivity
    have hEget : ∀ i, E.getD i false = (W.getD i false && !(src.getD i false)) := by
      intro i
      rw [hE]
      exact getD_zipWith_and_not W src (by rw [hsrc, hWlen, hcoords]) i
    refine ⟨W, E, ?_, ?_, ?_, ?_, ?_⟩
    · rw [traverse_ast_node, traverse_args_cons, traverse_ast_lit, traverse_args_cons, hS,
        traverse_args_nil]
      dsimp only
      rw [dispatch_within, evalWithin_posWithin _ mol c src hany]
    · rw [traverse_ast_node, traverse_args_cons, traverse_ast_lit, traverse_args_cons, hS,
        traverse_args_nil]
      dsimp only
      rw [dispatch_exwithin, evalWithin_posExwithin _ mol c src hany]
    · intro i h
      rw [hEget, Bool.and_eq_true] at h
      exact h.1
    · intro i
      rw [hEget]
      cases hs : src.getD i false with
      | false => simp
      | true =>
        rw [hself i hs]
        simp
    · intro i h
      obtain ⟨he, hs⟩ := h
      rw [hEget, hs] at he
      simp at he

/-- C4 witness: the within/exwithin relation at a concrete two-atom
molecule with cutoff 1 and source atom 0. -/
theorem claim4_exwithin_within_diff_witness :
    ∃ w e : List Bool,
      traverse_ast rmWild within_distance molA anA
        (.node "within" [.lit (.rat 1), .lit (.boolArr [true, false])]) =
        .ok (.boolArr w) ∧
      traverse_ast rmWild within_distance molA anA
        (.node "exwithin" [.lit (.rat 1), .lit (.boolArr [true, false])]) =
        .ok (.boolArr e) ∧
      (∀ i : Nat, e.getD i false = true → w.getD i false = true) ∧
      (∀ i : Nat, w.getD i false = (e.getD i false || [true, false].getD i false)) ∧
      (∀ i : Nat, ¬(e.getD i false = true ∧ [true, false].getD i false = true)) :=
  claim4_exwithin_within_diff rmWild molA anA 1 (.lit (.boolArr [true, false]))
    [true, false] (by norm_num) rfl rfl rfl

/-- C5: when the source of a within or exwithin node selects no atom, the
result is the all-false mask of length `numAtoms`, for every distance
primitive `wd` whatsoever - the primitive's behaviour cannot influence the
result, so it is never consulted. -/
theorem claim5_empty_source_all_false (rm : RegexFn) (wd : WithinFn) (mol : Molecule)
    (an : Analysis) (c : Rat) (S : AST) (src : List Bool)
    (hS : traverse_ast rm wd mol an S = .ok (.boolArr src))
    (hempty : src.any (fun b => b) = false) :
    traverse_ast rm wd mol an (.node "within" [.lit (.rat c), S]) =
      .ok (.boolArr (List.replicate mol.numAtoms false)) ∧
    traverse_ast rm wd mol an (.node "exwithin" [.lit (.rat c), S]) =
      .ok (.boolArr (List.replicate mol.numAtoms false)) := by
  constructor
  · rw [traverse_ast_node, traverse_args_cons, traverse_ast_lit, traverse_args_cons, hS,
      traverse_args_nil]
    dsimp only
    rw [dispatch_within]
    exact evalWithin_empty wd mol c src false hempty
  · rw [traverse_ast_node, traverse_args_cons, traverse_ast_lit, traverse_args_cons, hS,
      traverse_args_nil]
    dsimp only
    rw [dispatch_exwithin]
    exact evalWithin_empty wd mol c src true hempty

/-- C5 witness: the empty-source short-circuit at a concrete molecule. -/
theorem claim5_empty_source_all_false_witness :
    traverse_ast rmWild within_distance molA anA
      (.node "within" [.lit (.rat 5), .lit (.boolArr [false, false])]) =
      .ok (.boolArr (List.replicate molA.numAtoms false)) ∧
    traverse_ast rmWild within_distance molA anA
      (.node "exwithin" [.lit (.rat 5), .lit (.boolArr [false, false])]) =
      .ok (.boolArr (List.replicate molA.numAtoms false)) :=
  claim5_empty_source_all_false rmWild within_distance molA anA 5
    (.lit (.boolArr [false, false])) [false, false] rfl rfl

/-- C6: a sqrt function-call node whose operand array contains any negative
value fails with the negative-argument error carrying the offending
operand; no square root is computed. -/
theorem claim6_sqrt_negative_error (rm : RegexFn) (wd : WithinFn) (mol : Molecule)
    (an : Analysis) (A : AST) (xs : List Rat)
    (hA : traverse_ast rm wd mol an A = .ok (.ratArr xs))
    (hneg : ∃ x ∈ xs, x < 0) :
    traverse_ast rm wd mol an (.node "func" [.lit (.str "sqrt"), A]) =
      .error (.negativeSqrt (.ratArr xs)) := by
  have hany : xs.any (fun q => decide (q < 0)) = true := by
    obtain ⟨x, hx, hlt⟩ := hneg
    exact List.any_eq_true.mpr ⟨x, hx, decide_eq_true hlt⟩
  rw [traverse_ast_node, traverse_args_cons, traverse_ast_lit, traverse_args_cons, hA,
    traverse_args_nil]
  dsimp only
  rw [dispatch_func]
  unfold evalFunc
  simp [hany]

/-- C6 witness: sqrt on an array containing a negative entry errors. -/
theorem claim6_sqrt_negative_error_witness :
    traverse_ast rmWild within_distance molA anA
      (.node "func" [.lit (.str "sqrt"), .lit (.ratArr [1, -1])]) =
      .error (.negativeSqrt (.ratArr [1, -1])) :=
  claim6_sqrt_negative_error rmWild within_distance molA anA (.lit (.ratArr [1, -1]))
    [1, -1] rfl ⟨-1, by simp, by norm_num⟩

/-- C7: expanding a mask with "same residue as" is idempotent - applying
the expansion to its own result returns the same mask. -/
theorem claim7_same_residue_idempotent (rm : RegexFn) (wd : WithinFn) (mol : Molecule)
    (an : Analysis) (s m : List Bool)
    (h : traverse_ast rm wd mol an
        (.node "sameas" [.lit (.str "residue"), .lit (.boolArr s)]) = .ok (.boolArr m)) :
    traverse_ast rm wd mol an
      (.node "sameas" [.lit (.str "residue"), .lit (.boolArr m)]) = .ok (.boolArr m) := by
  have heval : ∀ sel : List Bool, traverse_ast rm wd mol an
      (.node "sameas" [.lit (.str "residue"), .lit (.boolArr sel)]) =
      .ok (.boolArr (sameasExpand an.residues sel)) := by
    intro sel
    rw [traverse_ast_node, traverse_args_cons, traverse_ast_lit, traverse_args_cons,
      traverse_ast_lit, traverse_args_nil]
    dsimp only
    rw [dispatch_sameas]
    rfl
  rw [heval] at h
  injection h with h1
  injection h1 with h2
  subst h2
  rw [heval, sameasExpand_idem]

/-- C7 witness: idempotence at a concrete molecule and mask. -/
theorem claim7_same_residue_idempotent_witness :
    traverse_ast rmWild within_distance molA anA
      (.node "sameas" [.lit (.str "residue"), .lit (.boolArr [true, false])]) =
      .ok (.boolArr [true, false]) :=
  claim7_same_residue_idempotent rmWild within_distance molA anA [true, false]
    [true, false] (by rfl)

/-- C9: the property-modulo branch subscripts `molpropmap` directly, so the
synthetic properties `index` and `residue` - both accepted by the
property-equals branch, which returns a boolean mask for them - raise a
key error instead of producing a mask. -/
theorem claim9_modulo_rejects_index_residue (rm : RegexFn) (wd : WithinFn)
    (mol : Molecule) (an : Analysis) (v1 v2 : Int) :
    traverse_ast rm wd mol an (.node "molprop_int_modulo"
        [.lit (.str "index"), .lit (.int v1), .lit (.int v2)]) =
      .error (.keyError "index") ∧
    traverse_ast rm wd mol an (.node "molprop_int_modulo"
        [.lit (.str "residue"), .lit (.int v1), .lit (.int v2)]) =
      .error (.keyError "residue") ∧
    traverse_ast rm wd mol an (.node "molprop_int_eq" [.lit (.str "index"), .lit (.int v1)]) =
      .ok (.boolArr (fn_int ((List.range mol.numAtoms).map Int.ofNat) (.scalar v1))) ∧
    traverse_ast rm wd mol an (.node "molprop_int_eq" [.lit (.str "residue"), .lit (.int v1)]) =
      .ok (.boolArr (fn_int an.residues (.scalar v1))) := ⟨rfl, rfl, rfl, rfl⟩

/-- C10: a single string query is regex-matched only when it contains the
literal wildcard marker substring; any other string - metacharacters or
not - is compared by exact elementwise equality. -/
theorem claim10_wildcard_marker_gates_regex (rm : RegexFn) (wd : WithinFn)
    (mol : Molecule) (an : Analysis) (y : String) :
    (hasWildcard y = false →
      traverse_ast rm wd mol an (.node "molprop_str_eq" [.lit (.str "name"), .lit (.str y)]) =
        .ok (.boolArr (mol.name.map (fun xx => xx == y)))) ∧
    (hasWildcard y = true →
      traverse_ast rm wd mol an (.node "molprop_str_eq" [.lit (.str "name"), .lit (.str y)]) =
        .ok (.boolArr (mol.name.map (fun xx => rm y xx)))) := by
  have hbase : traverse_ast rm wd mol an
      (.node "molprop_str_eq" [.lit (.str "name"), .lit (.str y)]) =
      .ok (.boolArr (fn_str rm mol.name (.scalar y))) := by
    rw [traverse_ast_node, traverse_args_cons, traverse_ast_lit, traverse_args_cons,
      traverse_ast_lit, traverse_args_nil]
    dsimp only
    rw [dispatch_molprop_str]
    rfl
  constructor <;> intro hw <;> rw [hbase] <;> unfold fn_str <;> simp [hw]

/-- C10 witness: a query with regex metacharacters but no wildcard marker
is matched by exact equality; one with the marker goes through the regex
parameter. -/
theorem claim10_wildcard_marker_gates_regex_witness :
    traverse_ast rmWild within_distance molA anA
      (.node "molprop_str_eq" [.lit (.str "name"), .lit (.str "C[A+")]) =
      .ok (.boolArr (molA.name.map (fun xx => xx == "C[A+"))) ∧
    traverse_ast rmWild within_distance molA anA
      (.node "molprop_str_eq" [.lit (.str "name"), .lit (.str "C.*")]) =
      .ok (.boolArr (molA.name.map (fun xx => rmWild "C.*" xx))) :=
  ⟨(claim10_wildcard_marker_gates_regex rmWild within_distance molA anA "C[A+").1 rfl,
   (claim10_wildcard_marker_gates_regex rmWild within_distance molA anA "C.*").2 rfl⟩

/-! Frame lemmas for the store-based evaluator: the store relation, its
closure under allocation and writes to fresh slots, and preservation
through every dispatch branch. -/

theorem ext_refl (h : Heap) : Heap.ext h h := ⟨le_refl _, fun _ _ => rfl⟩

theorem ext_trans {h1 h2 h3 : Heap} (a : Heap.ext h1 h2) (b : Heap.ext h2 h3) :
    Heap.ext h1 h3 :=
  ⟨le_trans a.1 b.1, fun i hi => (b.2 i (lt_of_lt_of_le hi a.1)).trans (a.2 i hi)⟩

theorem ext_alloc (h : Heap) (v : Value) : Heap.ext h (h.alloc v).2 := by
  constructor
  · simp [Heap.alloc]
  · intro i hi
    simp [Heap.alloc, List.getElem?_append, hi]

theorem ext_write_ge {h h' : Heap} (hx : Heap.ext h h') {j : Nat} (hj : h.length ≤ j)
    (v : Value) : Heap.ext h (h'.write j v) := by
  constructor
  · rw [Heap.write, List.length_set]
    exact hx.1
  · intro i hi
    rw [Heap.write, List.getElem?_set_ne (by omega)]
    exact hx.2 i hi

theorem evalWithinH_ext (wd : WithinFn) (mol : HMolecule) (h : Heap) (c s : Value)
    (excl : Bool) (v : Value) (h' : Heap)
    (hok : evalWithinH wd mol h c s excl = .ok (v, h')) : Heap.ext h h' := by
  cases s
  case boolArr src =>
    cases c
    case int n =>
      unfold evalWithinH at hok
      dsimp only at hok
      cases hcd : h[mol.coords]? with
      | none =>
        rw [hcd] at hok
        exact Except.noConfusion hok
      | some vv =>
        rw [hcd] at hok
        cases vv
        case coordArr cs =>
          dsimp only at hok
          split at hok
          · cases hok
            exact ext_alloc h _
          · split at hok
            · cases hok
              exact ext_write_ge (ext_write_ge (ext_alloc h _) (by simp [Heap.alloc]) _)
                (by simp [Heap.alloc, Heap.write]) _
            · cases hok
              exact ext_write_ge (ext_alloc h _) (by simp [Heap.alloc]) _
        all_goals exact Except.noConfusion hok
    case rat q =>
      unfold evalWithinH at hok
      dsimp only at hok
      cases hcd : h[mol.coords]? with
      | none =>
        rw [hcd] at hok
        exact Except.noConfusion hok
      | some vv =>
        rw [hcd] at hok
        cases vv
        case coordArr cs =>
          dsimp only at hok
          split at hok
          · cases hok
            exact ext_alloc h _
          · split at hok
            · cases hok
              exact ext_write_ge (ext_write_ge (ext_alloc h _) (by simp [Heap.alloc]) _)
                (by simp [Heap.alloc, Heap.write]) _
            · cases hok
              exact ext_write_ge (ext_alloc h _) (by simp [Heap.alloc]) _
        all_goals exact Except.noConfusion hok
    all_goals exact Except.noConfusion hok
  all_goals exact Except.noConfusion hok

theorem map_pair_heap {e : Except EvalErr Value} {h : Heap} {v : Value} {h' : Heap}
    (hok : e.map (fun v => (v, h)) = .ok (v, h')) : h' = h := by
  cases e with
  | error e => simp [Except.map] at hok
  | ok w =>
    simp [Except.map] at hok
    exact hok.2.symm

theorem dispatchH_ext (rm : RegexFn) (wd : WithinFn) (mol : HMolecule) (an : HAnalysis)
    (h : Heap) (op : String) (args : List Value) (v : Value) (h' : Heap)
    (hok : dispatchH rm wd mol an h op args = .ok (v, h')) : Heap.ext h h' := by
  unfold dispatchH at hok
  by_cases h1 : op = "within"
  · rw [if_pos h1] at hok
    split at hok
    · exact evalWithinH_ext _ _ _ _ _ _ _ _ hok
    · exact Except.noConfusion hok
  · rw [if_neg h1] at hok
    by_cases h2 : op = "exwithin"
    · rw [if_pos h2] at hok
      split at hok
      · exact evalWithinH_ext _ _ _ _ _ _ _ _ hok
      · exact Except.noConfusion hok
    · rw [if_neg h2] at hok
      rw [map_pair_heap hok]
      exact ext_refl h

theorem traverseH_lit (rm : RegexFn) (wd : WithinFn) (mol : HMolecule) (an : HAnalysis)
    (h : Heap) (v : Value) : traverseH rm wd mol an h (.lit v) = .ok (v, h) := by
  rw [traverseH]

theorem traverseH_node (rm : RegexFn) (wd : WithinFn) (mol : HMolecule) (an : HAnalysis)
    (h : Heap) (op : String) (args : List AST) :
    traverseH rm wd mol an h (.node op args) =
      match traverseArgsH rm wd mol an h args with
      | .error e => .error e
      | .ok (vals, h1) => dispatchH rm wd mol an h1 op vals := by
  rw [traverseH]

theorem traverseArgsH_nil (rm : RegexFn) (wd : WithinFn) (mol : HMolecule)
    (an : HAnalysis) (h : Heap) : traverseArgsH rm wd mol an h [] = .ok ([], h) := by
  rw [traverseArgsH]

theorem traverseArgsH_cons (rm : RegexFn) (wd : WithinFn) (mol : HMolecule)
    (an : HAnalysis) (h : Heap) (a : AST) (rest : List AST) :
    traverseArgsH rm wd mol an h (a :: rest) =
      match traverseH rm wd mol an h a with
      | .error e => .error e
      | .ok (v, h1) =>
        match traverseArgsH rm wd mol an h1 rest with
        | .error e => .error e
        | .ok (vs, h2) => .ok (v :: vs, h2) := by
  rw [traverseArgsH]

mutual

theorem traverseH_ext (rm : RegexFn) (wd : WithinFn) (mol : HMolecule) (an : HAnalysis) :
    ∀ (h : Heap) (a : AST) (v : Value) (h' : Heap),
      traverseH rm wd mol an h a = .ok (v, h') → Heap.ext h h'
  | h, .lit v0, v, h', hok => by
    rw [traverseH_lit] at hok
    cases hok
    exact ext_refl h
  | h, .node op args, v, h', hok => by
    rw [traverseH_node] at hok
    cases harg : traverseArgsH rm wd mol an h args with
    | error e =>
      rw [harg] at hok
      exact Except.noConfusion hok
    | ok p =>
      obtain ⟨vals, h1⟩ := p
      rw [harg] at hok
      exact ext_trans (traverseArgsH_ext rm wd mol an h args vals h1 harg)
        (dispatchH_ext rm wd mol an h1 op vals v h' hok)

theorem traverseArgsH_ext (rm : RegexFn) (wd : WithinFn) (mol : HMolecule)
    (an : HAnalysis) :
    ∀ (h : Heap) (l : List AST) (vs : List Value) (h' : Heap),
      traverseArgsH rm wd mol an h l = .ok (vs, h') → Heap.ext h h'
  | h, [], vs, h', hok => by
    rw [traverseArgsH_nil] at hok
    cases hok
    exact ext_refl h
  | h, a :: rest, vs, h', hok => by
    rw [traverseArgsH_cons] at hok
    cases ha : traverseH rm wd mol an h a with
    | error e =>
      rw [ha] at hok
      exact Except.noConfusion hok
    | ok p =>
      obtain ⟨v1, h1⟩ := p
      rw [ha] at hok
      dsimp only at hok
      cases hrest : traverseArgsH rm wd mol an h1 rest with
      | error e =>
        rw [hrest] at hok
        exact Except.noConfusion hok
      | ok q =>
        obtain ⟨vs2, h2⟩ := q
        rw [hrest] at hok
        dsimp only at hok
        cases hok
        exact ext_trans (traverseH_ext rm wd mol an h a v1 h1 ha)
          (traverseArgsH_ext rm wd mol an h1 rest _ _ hrest)

end

/-- C8: evaluation of any AST node leaves every array present in the store
before evaluation - in particular every per-atom array and the coordinate
array of the Molecule and every array of the Analysis mapping, all of which
live in store slots - holding exactly the same array afterwards; the store
can only have grown by freshly allocated slots (the within/exwithin mask).
The proof goes through the frame induction `traverseH_ext`, whose
within/exwithin case uses that the two in-place writes of that branch
target the slot the branch itself allocated at the old store length. -/
theorem claim8_evaluator_reads_only (rm : RegexFn) (wd : WithinFn) (mol : HMolecule)
    (an : HAnalysis) (h : Heap) (a : AST) (v : Value) (h' : Heap)
    (hok : traverseH rm wd mol an h a = .ok (v, h')) :
    h.length ≤ h'.length ∧ ∀ i, i < h.length → h'[i]? = h[i]? :=
  traverseH_ext rm wd mol an h a v h' hok

/-- C8 witness: an exwithin evaluation - the node kind that allocates and
writes a mask - leaves the pre-existing store slot (the coordinate array)
unchanged, with the mask in a fresh slot.  The cutoff is negative so the
spec-modelled primitive's per-atom test reduces without exercising the
host rational arithmetic, while both in-place writes of the branch still
happen. -/
theorem claim8_evaluator_reads_only_witness :
    heapW.length ≤
      ([.coordArr [(0, 0, 0), (10, 0, 0)], .boolArr [false, false]] : Heap).length ∧
    ∀ i, i < heapW.length →
      ([.coordArr [(0, 0, 0), (10, 0, 0)], .boolArr [false, false]] : Heap)[i]? =
        heapW[i]? :=
  claim8_evaluator_reads_only rmWild within_distance molW anW heapW
    (.node "exwithin" [.lit (.rat (-1)), .lit (.boolArr [true, false])])
    (.boolArr [false, false])
    [.coordArr [(0, 0, 0), (10, 0, 0)], .boolArr [false, false]]
    (by
      rw [traverseH_node, traverseArgsH_cons, traverseH_lit]
      dsimp only
      rw [traverseArgsH_cons, traverseH_lit]
      dsimp only
      rw [traverseArgsH_nil]
      rfl)

end MoleculeKit
